import Mathlib

/-!
Verification development for the erebrusvps deployment orchestrator.

The Go sources (main.go, docker/deployer.go, websocket/logger.go) are shallowly
embedded below: pure helpers become Lean functions, external effects (shell
commands, the filesystem, netstat probing) are parameters of a `World` oracle,
and the pipeline is modelled as explicit state passing that also records a
trace of the external effects it performs.
-/

namespace Erebrus

/-- Embeds `docker.Deployment` (deployer.go). `EnvVars` is a Go map; it is
modelled as an association list of key/value pairs. -/
structure Deployment where
  gitUrl : String
  envVars : List (String × String)
  port : String
  projectName : String
deriving Repr, DecidableEq

/-- Embeds `docker.DeploymentResult` (deployer.go). The Go `Error` field is
`omitempty`; its zero value is the empty string. -/
structure DeploymentResult where
  status : String
  url : String
  port : String
  error : String
deriving Repr, DecidableEq

/-- Embeds `docker.PortMapping` (deployer.go). -/
structure PortMapping where
  port : String
  projectName : String
  gitUrl : String
deriving Repr, DecidableEq

/-- The process-wide `usedPorts` map (deployer.go line 31), keyed by port
string, modelled as an association list with Go map lookup/store semantics. -/
abbrev UsedPorts : Type := List (String × PortMapping)

/-- Go map assignment `m[k] = v`: the new binding shadows and replaces any
previous binding of the same key. -/
def mapStore (m : UsedPorts) (k : String) (v : PortMapping) : UsedPorts :=
  (k, v) :: List.filter (fun kv => kv.1 ≠ k) m

/-- Go map read `m[k]`. -/
def mapLookup (m : UsedPorts) (k : String) : Option PortMapping :=
  List.lookup k m

/-! ### Project-name derivation (main.go lines 53-58)

`strings.Split(gitURL, "/")` with a one-character separator, then the last
element, then `strings.TrimSuffix(..., ".git")`.  Strings are handled at the
character-list level; `goSplitChar` is the translation of Go's
`strings.Split` restricted to the single-character separator the source
uses. -/

/-- Go `strings.Split(s, sep)` for a one-character separator: splits around
every occurrence of `sep`; the empty input yields one empty field. -/
def goSplitChar (sep : Char) : List Char → List (List Char)
  | [] => [[]]
  | c :: cs =>
    if c = sep then [] :: goSplitChar sep cs
    else
      match goSplitChar sep cs with
      | [] => [[c]]
      | g :: gs => (c :: g) :: gs

/-- Go `strings.TrimSuffix(s, suffix)`: drops one trailing occurrence of
`suffix` when present, otherwise returns the input unchanged. -/
def goTrimSuffix (l suffix : List Char) : List Char :=
  if suffix.isSuffixOf l then l.take (l.length - suffix.length) else l

/-- The repository suffix stripped in main.go: the characters of `.git`. -/
def gitSuffix : List Char := ['.', 'g', 'i', 't']

/-- Character-level embedding of the project-name derivation in
`deploymentHandler` (main.go lines 53-58): last `/`-separated field of the
git URL, with a trailing `.git` removed. -/
def deriveL (url : List Char) : List Char :=
  goTrimSuffix ((goSplitChar '/' url).getLastD []) gitSuffix

/-- String-level wrapper of `deriveL`, used by the handler model. -/
def deriveProjectName (url : String) : String :=
  String.mk (deriveL url.toList)

/-! ### Build Recipe Materializer (deployer.go `ensureDockerfile`, lines 151-167)

The workspace's `Dockerfile` slot is modelled as `Option String` (`none` =
the stat reports `IsNotExist`). -/

/-- The default Dockerfile written by `ensureDockerfile` (deployer.go lines
155-163). -/
def defaultDockerfile : String :=
  "FROM node:16-alpine\nWORKDIR /app\nCOPY package*.json ./\nRUN npm install\nCOPY . .\nRUN npm run build\nEXPOSE 8080\nRUN npm install -g serve\nCMD [\"serve\", \"-s\", \"build\", \"-l\", \"8080\"]"

/-- Embeds `ensureDockerfile` as a transformer of the workspace's Dockerfile
slot: writes the default recipe only when no recipe file exists. -/
def ensureDockerfile (dockerfile : Option String) : Option String :=
  match dockerfile with
  | none => some defaultDockerfile
  | some c => some c

/-! ### Compose Definition Generator (deployer.go `createDockerCompose`,
lines 169-192)

`fmt.Sprintf(template, port, "8080", "8080")` is concatenation of the
template's literal pieces around the spliced port. -/

/-- The compose template text before the external-port splice point. -/
def composePre : String :=
  "services:\n  app:\n    build: .\n    ports:\n      - \""

/-- The compose template text after the external-port splice point. -/
def composeSuf : String :=
  ":8080\"\n    environment:\n      PORT: \"8080\"\n    restart: always\n    networks:\n      - deployment-network\n\nnetworks:\n  deployment-network:\n    external: true"

/-- Embeds `createDockerCompose`: the rendered docker-compose.yml contents.
Only `deployment.Port` is spliced into the template; the internal port and
the `PORT` environment entry are the literal constant `8080`. -/
def createDockerCompose (dep : Deployment) : String :=
  composePre ++ dep.port ++ composeSuf

/-! ### Host and external-process oracle

Every external observation or fallible external action of the pipeline is a
field of `World`: the netstat probe, the container runtime's own published
ports (which the code never consults), and the outcome of each shell or
filesystem step.  A pipeline run is then a pure function of the `World`. -/

/-- Outcome of `os.Symlink` in `configureNginx`: success, an
`os.IsExist`-classified error (tolerated by the code), or any other error. -/
inductive SymlinkOutcome where
  | ok : SymlinkOutcome
  | already : SymlinkOutcome
  | err : String → SymlinkOutcome
deriving Repr, DecidableEq

/-- The external environment of one pipeline run. -/
structure World where
  /-- The shell pipeline of `isPortAvailable` (deployer.go line 290) exits
  with status zero for this port string, i.e. netstat shows a LISTEN line
  matching it. -/
  netstatBusy : String → Bool
  /-- Ports the container runtime currently publishes.  Present in the host
  state but never consulted by `isPortAvailable`. -/
  dockerPublished : String → Bool
  /-- `os.UserHomeDir`. -/
  homeDir : Except String String
  /-- `os.MkdirAll(workDir, 0755)` in `DeployProject`. -/
  mkdirWorkspace : Except String Unit
  /-- The `os.Stat(workDir)` check in `cloneRepository`: the directory exists. -/
  workDirExists : Bool
  /-- `os.RemoveAll(workDir)` in `cloneRepository`. -/
  removeWorkDir : Except String Unit
  /-- `os.MkdirAll(filepath.Dir(workDir), 0755)` in `cloneRepository`. -/
  mkdirParent : Except String Unit
  /-- The `git clone` command. -/
  gitClone : Except String Unit
  /-- The `os.Stat(dockerfilePath)` check in `ensureDockerfile`: a recipe
  file already exists. -/
  dockerfileExists : Bool
  /-- `os.WriteFile` of the default Dockerfile. -/
  writeDockerfile : Except String Unit
  /-- `os.WriteFile` of docker-compose.yml. -/
  writeCompose : Except String Unit
  /-- The `docker ps -q --filter publish=...` probe in `buildAndRun` finds a
  container on the target port. -/
  psFindsContainer : Bool
  /-- `docker compose up --build -d --force-recreate`. -/
  composeUp : Except String Unit
  /-- `os.WriteFile` of the nginx site config. -/
  nginxWriteConfig : Except String Unit
  /-- `os.Symlink` into sites-enabled. -/
  nginxSymlink : SymlinkOutcome
  /-- `sudo nginx -t`. -/
  nginxSyntaxCheck : Except String Unit
  /-- `sudo systemctl reload nginx`. -/
  nginxReload : Except String Unit

/-- One external effect performed by the pipeline, in the order recorded in
the run's trace. -/
inductive Effect where
  | mkdirWorkspace : Effect
  | statWorkDir : Effect
  | removeWorkDir : Effect
  | mkdirParent : Effect
  | gitClone : Effect
  | statDockerfile : Effect
  | writeDockerfile : Effect
  | writeCompose : Effect
  | composeDown : Effect
  | dockerPsCheck : Effect
  | dockerStopRm : Effect
  | networkCreate : Effect
  | composeUp : Effect
  | nginxRemoveSymlink : Effect
  | nginxWriteConfig : Effect
  | nginxSymlink : Effect
  | nginxSyntaxCheck : Effect
  | nginxReload : Effect
deriving Repr, DecidableEq

/-! ### Port Allocator (deployer.go lines 31-44, 288-293) -/

/-- The fixed base of the port scan (deployer.go line 32). -/
def startingPort : Nat := 3000

/-- Embeds `isPortAvailable` (deployer.go lines 289-293): the port is
available exactly when the netstat pipeline fails to find it.  No other
host introspection is performed. -/
def isPortAvailable (w : World) (port : String) : Bool :=
  !(w.netstatBusy port)

/-- The per-candidate availability test of the scan loop (deployer.go line
39): the port string is not a key of `usedPorts`, and `isPortAvailable`
holds. -/
def candidateFree (w : World) (used : UsedPorts) (port : String) : Bool :=
  (mapLookup used port).isNone && isPortAvailable w port

/-- The scan loop of `getNextAvailablePort`, made terminating with explicit
fuel; `none` models the Go loop never exiting within `fuel` candidates. -/
def getNextAvailablePortAux (w : World) (used : UsedPorts) :
    Nat → Nat → Option String
  | 0, _ => none
  | fuel + 1, port =>
    let portStr := toString port
    if candidateFree w used portStr then some portStr
    else getNextAvailablePortAux w used fuel (port + 1)

/-- Embeds `getNextAvailablePort` (deployer.go lines 34-44). -/
def getNextAvailablePort (w : World) (used : UsedPorts) (fuel : Nat) :
    Option String :=
  getNextAvailablePortAux w used fuel startingPort

/-- The port-resolution prefix of `DeployProject` (deployer.go lines 49-64):
pick the port, then store the `PortMapping` in `usedPorts` unconditionally.
Returns the resolved port and the updated map. -/
def resolvePort (w : World) (fuel : Nat) (used : UsedPorts)
    (dep : Deployment) : Option (String × UsedPorts) :=
  let chosen : Option String :=
    if dep.port = "" then getNextAvailablePort w used fuel
    else if !(isPortAvailable w dep.port) then getNextAvailablePort w used fuel
    else some dep.port
  chosen.map fun p =>
    (p, mapStore used p ⟨p, dep.projectName, dep.gitUrl⟩)

/-! ### Pipeline stages with their effect traces

Each stage returns its Go error (as `Except String Unit`) together with the
list of external effects it performed, in order. -/

/-- Embeds `cloneRepository` (deployer.go lines 123-149): stat the work
directory, remove it when present, recreate the parent, run `git clone`. -/
def cloneRepository (w : World) : Except String Unit × List Effect :=
  match w.workDirExists, w.removeWorkDir with
  | true, .error m =>
    (.error ("failed to clean existing directory: " ++ m),
     [.statWorkDir, .removeWorkDir])
  | exists?, _ =>
    let pre : List Effect :=
      if exists? then [.statWorkDir, .removeWorkDir] else [.statWorkDir]
    match w.mkdirParent with
    | .error m =>
      (.error ("failed to create parent directory: " ++ m), pre ++ [.mkdirParent])
    | .ok _ =>
      match w.gitClone with
      | .error m =>
        (.error ("git clone failed: " ++ m), pre ++ [.mkdirParent, .gitClone])
      | .ok _ => (.ok (), pre ++ [.mkdirParent, .gitClone])

/-- Embeds the effect behaviour of `ensureDockerfile` (deployer.go lines
151-167): the default recipe is written only when the stat reports that no
recipe exists. -/
def ensureDockerfileStep (w : World) : Except String Unit × List Effect :=
  if w.dockerfileExists then (.ok (), [.statDockerfile])
  else
    match w.writeDockerfile with
    | .error m => (.error m, [.statDockerfile, .writeDockerfile])
    | .ok _ => (.ok (), [.statDockerfile, .writeDockerfile])

/-- Embeds `buildAndRun` (deployer.go lines 194-228): best-effort teardown
and port probe, network creation with errors ignored, then the fatal
`docker compose up`. -/
def buildAndRun (w : World) : Except String Unit × List Effect :=
  let pre : List Effect :=
    [.composeDown, .dockerPsCheck] ++
      (if w.psFindsContainer then [.dockerStopRm] else []) ++ [.networkCreate]
  match w.composeUp with
  | .error m => (.error m, pre ++ [.composeUp])
  | .ok _ => (.ok (), pre ++ [.composeUp])

/-- Embeds `configureNginx` (deployer.go lines 230-286): remove the old
symlink, write the site config, symlink it, run the syntax check, and only
then reload. -/
def configureNginx (w : World) : Except String Unit × List Effect :=
  match w.nginxWriteConfig with
  | .error m =>
    (.error ("failed to write nginx config: " ++ m),
     [.nginxRemoveSymlink, .nginxWriteConfig])
  | .ok _ =>
    match w.nginxSymlink with
    | .err m =>
      (.error ("failed to create nginx symlink: " ++ m),
       [.nginxRemoveSymlink, .nginxWriteConfig, .nginxSymlink])
    | _ =>
      match w.nginxSyntaxCheck with
      | .error m =>
        (.error ("nginx configuration test failed: " ++ m),
         [.nginxRemoveSymlink, .nginxWriteConfig, .nginxSymlink,
          .nginxSyntaxCheck])
      | .ok _ =>
        match w.nginxReload with
        | .error m =>
          (.error ("failed to reload nginx: " ++ m),
           [.nginxRemoveSymlink, .nginxWriteConfig, .nginxSymlink,
            .nginxSyntaxCheck, .nginxReload])
        | .ok _ =>
          (.ok (),
           [.nginxRemoveSymlink, .nginxWriteConfig, .nginxSymlink,
            .nginxSyntaxCheck, .nginxReload])

/-- The stage sequence of `DeployProject` after the port has been resolved
and stored (deployer.go lines 66-121): each failing stage returns its
wrapped error at once; no later stage runs and nothing done so far is
undone. -/
def deployStages (w : World) (dep : Deployment) :
    Except String DeploymentResult × List Effect :=
  match w.homeDir with
  | .error m => (.error ("failed to get home directory: " ++ m), [])
  | .ok _ =>
    match w.mkdirWorkspace with
    | .error m => (.error ("failed to create workspace: " ++ m), [.mkdirWorkspace])
    | .ok _ =>
      let (cres, ctr) := cloneRepository w
      match cres with
      | .error m =>
        (.error ("failed to clone repository: " ++ m), .mkdirWorkspace :: ctr)
      | .ok _ =>
        let (eres, etr) := ensureDockerfileStep w
        match eres with
        | .error m =>
          (.error ("failed to create Dockerfile: " ++ m),
           .mkdirWorkspace :: ctr ++ etr)
        | .ok _ =>
          match w.writeCompose with
          | .error m =>
            (.error ("failed to create docker-compose.yml: " ++ m),
             .mkdirWorkspace :: ctr ++ etr ++ [.writeCompose])
          | .ok _ =>
            let (bres, btr) := buildAndRun w
            match bres with
            | .error m =>
              (.error ("failed to build and run: " ++ m),
               .mkdirWorkspace :: ctr ++ etr ++ [.writeCompose] ++ btr)
            | .ok _ =>
              let (nres, ntr) := configureNginx w
              match nres with
              | .error m =>
                (.error ("failed to configure nginx: " ++ m),
                 .mkdirWorkspace :: ctr ++ etr ++ [.writeCompose] ++ btr ++ ntr)
              | .ok _ =>
                (.ok ⟨"success",
                      "http://" ++ dep.projectName ++ ".localhost",
                      dep.port, ""⟩,
                 .mkdirWorkspace :: ctr ++ etr ++ [.writeCompose] ++ btr ++ ntr)

/-- Embeds `DeployProject` (deployer.go lines 46-121): resolve and store the
port, then run the stages.  `none` models the port scan never terminating. -/
def DeployProject (w : World) (fuel : Nat) (used : UsedPorts)
    (dep : Deployment) :
    Option (Except String DeploymentResult × UsedPorts × List Effect) :=
  (resolvePort w fuel used dep).map fun pu =>
    let dep' := { dep with port := pu.1 }
    let (res, tr) := deployStages w dep'
    (res, pu.2, tr)

/-! ### HTTP layer (main.go `deploymentHandler`, lines 30-69)

Modelled after a successful JSON decode of a POST body; `http.Error`
responses are plain text with a status code, a successful deployment is the
JSON-encoded `DeploymentResult`. -/

/-- The response written by `deploymentHandler`. -/
inductive HttpResponse where
  | json : Nat → DeploymentResult → HttpResponse
  | plainError : Nat → String → HttpResponse
deriving Repr, DecidableEq

/-- Embeds `deploymentHandler` (main.go lines 30-69) after JSON decoding:
validation, port and project-name defaulting, then `DeployProject`. -/
def deploymentHandler (w : World) (fuel : Nat) (used : UsedPorts)
    (dep : Deployment) : Option (HttpResponse × UsedPorts × List Effect) :=
  if dep.gitUrl = "" then
    some (.plainError 400 "git_url is required", used, [])
  else
    let dep₁ := if dep.port = "" then { dep with port := "3000" } else dep
    let dep₂ :=
      if dep₁.projectName = "" then
        { dep₁ with projectName := deriveProjectName dep₁.gitUrl }
      else dep₁
    (DeployProject w fuel used dep₂).map fun rut =>
      match rut.1 with
      | .ok r => (.json 200 r, rut.2.1, rut.2.2)
      | .error e => (.plainError 500 e, rut.2.1, rut.2.2)

/-! ### Progress Broadcaster dispatch loop (websocket/logger.go lines 65-77)

Observers are abstract connection identifiers; `writeOk c` is the oracle for
whether `WriteMessage` to `c` succeeds for the message being dispatched.
One round of the `for client := range ls.clients` loop returns the surviving
observer set and the connections that were closed. -/

/-- One dispatch round of `handleMessages`: write to every observer; an
observer whose write fails is closed and deleted from the set at once. -/
def handleMessagesRound (writeOk : Nat → Bool) :
    List Nat → List Nat × List Nat
  | [] => ([], [])
  | c :: cs =>
    let r := handleMessagesRound writeOk cs
    if writeOk c then (c :: r.1, r.2) else (r.1, c :: r.2)

/-! ### Concrete environments used by witnesses and counterexamples -/

/-- A run in which every external step succeeds and no port is bound on the
host. -/
def allOkWorld : World :=
  ⟨fun _ => false, fun _ => false, .ok ("/root"), .ok (), true, .ok (),
   .ok (), .ok (), false, .ok (), .ok (), false, .ok (), .ok (),
   .ok, .ok (), .ok ()⟩

/-- A bookkeeping state in which port 3000 is already assigned to project
`app`. -/
def usedApp3000 : UsedPorts := [("3000", ⟨"3000", "app", "u"⟩)]

/-! ### C1: the per-candidate availability test -/

/-- The availability test exactly as the claim words it: free when (a) the
port is not keyed in the assignment mapping for a project other than the
requesting one, and (b) neither the container runtime's published ports nor
the listening-socket table binds it. -/
def claimFree (w : World) (used : UsedPorts) (port proj : String) : Bool :=
  (match mapLookup used port with
   | none => true
   | some m => m.projectName == proj) &&
  !(w.dockerPublished port) && !(w.netstatBusy port)

/-- C1 counterexample: the claim's availability test disagrees with the
code's.  With port 3000 keyed in `usedPorts` by the *same* project `app` and
the host not binding it, the code treats 3000 as in use while the claim
calls it free; the code also never consults the container runtime's
published ports. -/
theorem c1_availability_claim_false :
    ¬ (∀ (w : World) (used : UsedPorts) (port proj : String),
        candidateFree w used port = claimFree w used port proj) :=
  fun h => absurd (h allOkWorld usedApp3000 ("3000") ("app")) (by decide)

/-- C1 amended: a candidate port passes the scan's availability test exactly
when it is not a key of the assignment mapping at all (whichever project
holds it) and the host's listening-socket probe does not report it; the
container runtime's published ports are not consulted. -/
theorem c1_availability_amended :
    ∀ (w : World) (used : UsedPorts) (port : String) (d : String → Bool),
      (candidateFree w used port = true ↔
        mapLookup used port = none ∧ w.netstatBusy port = false) ∧
      candidateFree { w with dockerPublished := d } used port =
        candidateFree w used port := by
  intro w used port d
  constructor
  · simp [candidateFree, isPortAvailable, Option.isNone_iff_eq_none]
  · rfl

/-! ### C7: Build Recipe Materializer -/

/-- C7: the materializer never modifies an existing recipe, is idempotent,
writes the default recipe exactly when no recipe exists, and the effectful
step performs a write exactly when the stat reports no recipe. -/
theorem c7_recipe_materializer :
    (∀ c : String, ensureDockerfile (some c) = some c) ∧
    (∀ fs : Option String,
      ensureDockerfile (ensureDockerfile fs) = ensureDockerfile fs) ∧
    (∀ fs : Option String, ensureDockerfile fs = fs ∨
      (fs = none ∧ ensureDockerfile fs = some defaultDockerfile)) ∧
    (∀ w : World, Effect.writeDockerfile ∈ (ensureDockerfileStep w).2 ↔
      w.dockerfileExists = false) := by
  refine ⟨fun c => rfl, fun fs => by cases fs <;> rfl, fun fs => ?_, fun w => ?_⟩
  · cases fs
    · exact Or.inr ⟨rfl, rfl⟩
    · exact Or.inl rfl
  · rcases hd : w.dockerfileExists
    · rcases hw : w.writeDockerfile <;> simp [ensureDockerfileStep, hd, hw]
    · simp [ensureDockerfileStep, hd]

/-! ### C9: Progress Broadcaster dispatch loop -/

/-- C9: in one dispatch round, an observer survives exactly when it was in
the set and its write succeeded, and an observer's connection is closed
exactly when it was in the set and its write failed — removal depends on
nothing else (no heartbeat or ping condition). -/
theorem c9_dispatch_cleanup :
    ∀ (writeOk : Nat → Bool) (clients : List Nat) (c : Nat),
      (c ∈ (handleMessagesRound writeOk clients).1 ↔
        c ∈ clients ∧ writeOk c = true) ∧
      (c ∈ (handleMessagesRound writeOk clients).2 ↔
        c ∈ clients ∧ writeOk c = false) := by
  intro writeOk clients c
  induction clients with
  | nil => simp [handleMessagesRound]
  | cons a cs ih =>
    rcases ha : writeOk a
    · refine ⟨?_, ?_⟩
      · rw [show (handleMessagesRound writeOk (a :: cs)).1 =
            (handleMessagesRound writeOk cs).1 by simp [handleMessagesRound, ha]]
        rw [ih.1, List.mem_cons]
        constructor
        · rintro ⟨h1, h2⟩
          exact ⟨Or.inr h1, h2⟩
        · rintro ⟨h1 | h1, h2⟩
          · subst h1
            rw [ha] at h2
            cases h2
          · exact ⟨h1, h2⟩
      · rw [show (handleMessagesRound writeOk (a :: cs)).2 =
            a :: (handleMessagesRound writeOk cs).2 by
              simp [handleMessagesRound, ha]]
        rw [List.mem_cons, ih.2, List.mem_cons]
        constructor
        · rintro (h1 | ⟨h1, h2⟩)
          · subst h1
            exact ⟨Or.inl rfl, ha⟩
          · exact ⟨Or.inr h1, h2⟩
        · rintro ⟨h1 | h1, h2⟩
          · exact Or.inl h1
          · exact Or.inr ⟨h1, h2⟩
    · refine ⟨?_, ?_⟩
      · rw [show (handleMessagesRound writeOk (a :: cs)).1 =
            a :: (handleMessagesRound writeOk cs).1 by
              simp [handleMessagesRound, ha]]
        rw [List.mem_cons, ih.1, List.mem_cons]
        constructor
        · rintro (h1 | ⟨h1, h2⟩)
          · subst h1
            exact ⟨Or.inl rfl, ha⟩
          · exact ⟨Or.inr h1, h2⟩
        · rintro ⟨h1 | h1, h2⟩
          · exact Or.inl h1
          · exact Or.inr ⟨h1, h2⟩
      · rw [show (handleMessagesRound writeOk (a :: cs)).2 =
            (handleMessagesRound writeOk cs).2 by simp [handleMessagesRound, ha]]
        rw [ih.2, List.mem_cons]
        constructor
        · rintro ⟨h1, h2⟩
          exact ⟨Or.inr h1, h2⟩
        · rintro ⟨h1 | h1, h2⟩
          · subst h1
            rw [ha] at h2
            cases h2
          · exact ⟨h1, h2⟩

/-! ### C8: empty git_url fails validation before any side effect -/

/-- C8: a request with empty `git_url` is answered with the 400 client error
`git_url is required`; the assignment map is untouched and the effect trace
is empty — no reservation, filesystem, container, or proxy action. -/
theorem c8_empty_giturl :
    ∀ (w : World) (fuel : Nat) (used : UsedPorts) (dep : Deployment),
      dep.gitUrl = "" →
      deploymentHandler w fuel used dep =
        some (.plainError 400 "git_url is required", used, []) := by
  intro w fuel used dep h
  simp [deploymentHandler, h]

/-- C8 witness at a concrete empty-URL request. -/
theorem c8_empty_giturl_witness :
    deploymentHandler allOkWorld 0 [] ⟨"", [], "", ""⟩ =
      some (.plainError 400 "git_url is required", [], []) :=
  c8_empty_giturl allOkWorld 0 [] ⟨"", [], "", ""⟩ rfl

/-! ### C10: an explicit available port is stored without consulting the map -/

/-- C10: when the request carries a non-empty port that passes the
host-introspection probe, the resolved port is that port for *every*
possible assignment map (the map is not consulted), and the stored
`PortMapping` unconditionally replaces whatever binding the key had, so a
different project's assignment under the same key is silently lost. -/
theorem c10_explicit_port_overwrite :
    ∀ (w : World) (fuel : Nat) (used : UsedPorts) (dep : Deployment),
      dep.port ≠ "" → isPortAvailable w dep.port = true →
      resolvePort w fuel used dep =
        some (dep.port,
          mapStore used dep.port ⟨dep.port, dep.projectName, dep.gitUrl⟩) ∧
      mapLookup (mapStore used dep.port ⟨dep.port, dep.projectName, dep.gitUrl⟩)
          dep.port = some ⟨dep.port, dep.projectName, dep.gitUrl⟩ ∧
      (∀ kv ∈ mapStore used dep.port ⟨dep.port, dep.projectName, dep.gitUrl⟩,
        kv.1 = dep.port → kv.2 = ⟨dep.port, dep.projectName, dep.gitUrl⟩) := by
  intro w fuel used dep hne hav
  refine ⟨?_, ?_, ?_⟩
  · simp [resolvePort, hne, hav]
  · simp [mapLookup, mapStore, List.lookup]
  · intro kv hkv hk
    rcases List.mem_cons.mp hkv with h1 | h2
    · rw [h1]
    · have hne' := List.of_mem_filter h2
      simp only [decide_eq_true_eq] at hne'
      exact absurd hk hne'

/-- C10 witness: project `beta` requests port 3000, which `alpha` holds in
the map but the host reports free; `alpha`'s assignment is replaced. -/
theorem c10_explicit_port_overwrite_witness :
    resolvePort allOkWorld 0 usedApp3000 ⟨"g2", [], "3000", "beta"⟩ =
      some ("3000", [("3000", ⟨"3000", "beta", "g2"⟩)]) := by
  have h := (c10_explicit_port_overwrite allOkWorld 0 usedApp3000
    ⟨"g2", [], "3000", "beta"⟩ (by decide) (by decide)).1
  rw [h]
  rfl

/-! ### C6: project-name derivation — supporting lemmas -/

/-- `strings.Split` never returns an empty slice. -/
theorem goSplitChar_ne_nil (sep : Char) (l : List Char) :
    goSplitChar sep l ≠ [] := by
  cases l with
  | nil => simp [goSplitChar]
  | cons c cs =>
    simp only [goSplitChar]
    by_cases h : c = sep
    · simp [h]
    · simp only [if_neg h]
      rcases hg : goSplitChar sep cs with _ | ⟨g, gs⟩ <;> simp

/-- Splitting a separator-free list yields that single field. -/
theorem goSplitChar_not_mem (sep : Char) (l : List Char) (h : sep ∉ l) :
    goSplitChar sep l = [l] := by
  induction l with
  | nil => rfl
  | cons c cs ih =>
    have hc : ¬ c = sep := by
      intro e
      exact h (by rw [e]; exact List.mem_cons_self sep cs)
    have hcs : sep ∉ cs := fun hm => h (List.mem_cons_of_mem c hm)
    simp [goSplitChar, hc, ih hcs]

/-- The default of `getLastD` is irrelevant on a non-empty list. -/
theorem getLastD_irrel {α : Type} {l : List α} (hl : l ≠ []) (d₁ d₂ : α) :
    l.getLastD d₁ = l.getLastD d₂ := by
  cases l with
  | nil => exact absurd rfl hl
  | cons a l => rw [List.getLastD_cons, List.getLastD_cons]

/-- A list containing the separator splits into at least two fields. -/
theorem goSplitChar_length_of_mem (sep : Char) (l : List Char)
    (h : sep ∈ l) : 2 ≤ (goSplitChar sep l).length := by
  induction l with
  | nil => cases h
  | cons c cs ih =>
    by_cases hc : c = sep
    · have h1 : 1 ≤ (goSplitChar sep cs).length :=
        List.length_pos.mpr (goSplitChar_ne_nil sep cs)
      simp only [goSplitChar, if_pos hc, List.length_cons]
      omega
    · have hm : sep ∈ cs := by
        rcases List.mem_cons.mp h with h1 | h2
        · exact absurd h1.symm hc
        · exact h2
      have h2 := ih hm
      simp only [goSplitChar, if_neg hc]
      rcases hg : goSplitChar sep cs with _ | ⟨g, gs⟩
      · exact absurd hg (goSplitChar_ne_nil sep cs)
      · rw [hg] at h2
        simpa using h2

/-- The last field of a split is unaffected by anything left of the last
separator. -/
theorem goSplitChar_getLastD_append (sep : Char) (xs ys : List Char) :
    (goSplitChar sep (xs ++ sep :: ys)).getLastD [] =
      (goSplitChar sep ys).getLastD [] := by
  induction xs with
  | nil =>
    have e : goSplitChar sep (sep :: ys) = [] :: goSplitChar sep ys := by
      simp [goSplitChar]
    rw [List.nil_append, e, List.getLastD_cons]
  | cons c xs' ih =>
    by_cases hc : c = sep
    · have e : goSplitChar sep (c :: (xs' ++ sep :: ys)) =
          [] :: goSplitChar sep (xs' ++ sep :: ys) := by
        simp [goSplitChar, hc]
      rw [List.cons_append, e, List.getLastD_cons]
      exact ih
    · simp only [List.cons_append, goSplitChar, if_neg hc]
      rcases hg : goSplitChar sep (xs' ++ sep :: ys) with _ | ⟨g, gs⟩
      · exact absurd hg (goSplitChar_ne_nil _ _)
      · have hlen := goSplitChar_length_of_mem sep (xs' ++ sep :: ys)
          (by simp)
        rw [hg] at hlen
        have hgs : gs ≠ [] := by
          intro e
          rw [e] at hlen
          simp at hlen
        rw [hg, List.getLastD_cons] at ih
        rw [List.getLastD_cons]
        calc gs.getLastD (c :: g) = gs.getLastD g := getLastD_irrel hgs _ _
        _ = _ := ih

/-- C6: when the URL splits as `prefix / segment` with a slash-free final
segment, the derived project name is that final segment with a trailing
`.git` removed; a URL with no slash derives from the whole URL the same
way. -/
theorem c6_derived_project_name :
    (∀ pre seg : List Char, '/' ∉ seg →
      deriveL (pre ++ '/' :: seg) =
        if gitSuffix <:+ seg then seg.take (seg.length - gitSuffix.length)
        else seg) ∧
    (∀ url : List Char, '/' ∉ url →
      deriveL url =
        if gitSuffix <:+ url then url.take (url.length - gitSuffix.length)
        else url) := by
  have key : ∀ seg : List Char, '/' ∉ seg →
      goTrimSuffix seg gitSuffix =
        if gitSuffix <:+ seg then seg.take (seg.length - gitSuffix.length)
        else seg := by
    intro seg _
    unfold goTrimSuffix
    by_cases hs : gitSuffix <:+ seg
    · rw [if_pos hs, if_pos (List.isSuffixOf_iff_suffix.mpr hs)]
    · rw [if_neg hs, if_neg (fun hb => hs (List.isSuffixOf_iff_suffix.mp hb))]
  constructor
  · intro pre seg h
    unfold deriveL
    rw [goSplitChar_getLastD_append, goSplitChar_not_mem _ _ h]
    simpa using key seg h
  · intro url h
    unfold deriveL
    rw [goSplitChar_not_mem _ _ h]
    simpa using key url h

/-- C6 witness at the spec's example URL: `https://example.com/org/app.git`
derives `app`. -/
theorem c6_derived_project_name_witness :
    deriveProjectName ("https://example.com/org/app.git") = "app" := by
  have e : ("https://example.com/org/app.git").toList =
      ("https://example.com/org").toList ++ '/' :: ("app.git").toList := by
    decide
  have h := c6_derived_project_name.1 (("https://example.com/org").toList)
    (("app.git").toList) (by decide)
  unfold deriveProjectName
  rw [e, h]
  decide

/-! ### C2: port allocation on re-deploy without an explicit port -/

/-- A port passing the scan's availability test is not a key of the
assignment map. -/
theorem candidateFree_lookup_none {w : World} {used : UsedPorts}
    {port : String} (h : candidateFree w used port = true) :
    mapLookup used port = none := by
  simp only [candidateFree, Bool.and_eq_true, Option.isNone_iff_eq_none] at h
  exact h.1

/-- Soundness of the scan loop: a port it returns is the decimal form of
some candidate at or above the scan start, and passes the availability
test — in particular it is not a key of the assignment map. -/
theorem getNextAvailablePortAux_sound (w : World) (used : UsedPorts) :
    ∀ (fuel start : Nat) (p : String),
      getNextAvailablePortAux w used fuel start = some p →
      ∃ n, start ≤ n ∧ p = toString n ∧ candidateFree w used p = true := by
  intro fuel
  induction fuel with
  | zero => intro start p h; cases h
  | succ f ih =>
    intro start p h
    simp only [getNextAvailablePortAux] at h
    by_cases hf : candidateFree w used (toString start) = true
    · rw [if_pos hf] at h
      cases h
      exact ⟨start, le_refl start, rfl, hf⟩
    · rw [if_neg hf] at h
      rcases ih (start + 1) p h with ⟨n, hn, hp, hfree⟩
      exact ⟨n, by omega, hp, hfree⟩

/-- C2: on a re-deploy of an already-deployed project with no explicit
port, any port the allocator returns is a fresh decimal candidate at or
above the base 3000 that is not a key of the assignment map — hence not
recorded as held by any project, in particular not by a different live one.
Moreover any port already recorded in the map (such as the project's prior
port) fails the availability test, so the "same port" branch of the claim
holds vacuously. -/
theorem c2_redeploy_allocation :
    ∀ (w : World) (fuel : Nat) (used : UsedPorts) (dep : Deployment)
      (oldPort g p : String) (used' : UsedPorts),
      dep.port = "" →
      mapLookup used oldPort = some ⟨oldPort, dep.projectName, g⟩ →
      resolvePort w fuel used dep = some (p, used') →
      (∃ n, startingPort ≤ n ∧ p = toString n) ∧
      mapLookup used p = none ∧
      (∀ m : PortMapping, mapLookup used p = some m →
        m.projectName = dep.projectName) ∧
      candidateFree w used oldPort = false := by
  intro w fuel used dep oldPort g p used' hport hold hres
  simp only [resolvePort, hport, if_pos rfl, getNextAvailablePort] at hres
  rcases hscan : getNextAvailablePortAux w used fuel startingPort with _ | q
  · rw [hscan] at hres
    cases hres
  · rw [hscan] at hres
    have hres' : (q, mapStore used q ⟨q, dep.projectName, dep.gitUrl⟩) =
        (p, used') := Option.some.inj hres
    have hpq : q = p := congrArg Prod.fst hres'
    subst hpq
    rcases getNextAvailablePortAux_sound w used fuel startingPort q hscan
      with ⟨n, hn, hq, hfree⟩
    have hnone : mapLookup used q = none := candidateFree_lookup_none hfree
    refine ⟨⟨n, hn, hq⟩, hnone, ?_, ?_⟩
    · intro m hm
      rw [hnone] at hm
      cases hm
    · simp [candidateFree, hold]

/-- C2 witness: project `app` held port 3000; a re-deploy without an
explicit port is handed 3001 — a fresh decimal candidate at or above the
base that no project holds. -/
theorem c2_redeploy_allocation_witness :
    (∃ n, startingPort ≤ n ∧ ("3001" : String) = toString n) ∧
    mapLookup usedApp3000 ("3001") = none := by
  have h := c2_redeploy_allocation allOkWorld 2 usedApp3000 ⟨"u", [], "", "app"⟩
    ("3000") ("u") ("3001")
    [("3001", ⟨"3001", "app", "u"⟩), ("3000", ⟨"3000", "app", "u"⟩)]
    rfl (by decide) (by decide)
  exact ⟨h.1, h.2.1⟩

/-! ### C3: the rendered compose manifest -/

/-- A deployment request carrying an environment variable, used to show the
generator ignores `env_vars`. -/
def envDep : Deployment := ⟨"u", [("FOO", "bar")], "3000", "app"⟩

/-- C3 counterexample: the claim says every `env_vars` entry is injected as
a service environment entry, but the rendered manifest for a request with
`FOO=bar` does not mention `FOO` anywhere — the generator ignores
`env_vars` entirely. -/
theorem c3_env_injection_false :
    ¬ (∀ (dep : Deployment) (k v : String), (k, v) ∈ dep.envVars →
        k.toList <:+: (createDockerCompose dep).toList) := by
  intro h
  have h2 := h envDep ("FOO") ("bar") (by decide)
  have h3 : 'F' ∈ (createDockerCompose envDep).toList :=
    h2.subset (by decide)
  exact absurd h3 (by decide)

set_option maxRecDepth 4000 in
/-- C3 amended: the manifest publishes `"<external_port>:8080"`, keeps the
fixed environment entry `PORT: "8080"` (the request's `env_vars` are not
injected; the output is independent of them), sets restart to always,
attaches the service to the shared `deployment-network`, and the internal
port 8080 matches the default recipe's exposed port. -/
theorem c3_compose_manifest :
    ∀ dep : Deployment,
      ("\"" ++ dep.port ++ ":8080\"").toList <:+:
        (createDockerCompose dep).toList ∧
      ("restart: always").toList <:+: (createDockerCompose dep).toList ∧
      ("- deployment-network").toList <:+: (createDockerCompose dep).toList ∧
      ("PORT: \"8080\"").toList <:+: (createDockerCompose dep).toList ∧
      (∀ ev, createDockerCompose { dep with envVars := ev } =
        createDockerCompose dep) ∧
      ("EXPOSE 8080").toList <:+: defaultDockerfile.toList := by
  intro dep
  have hsuf : composeSuf.toList <:+: (createDockerCompose dep).toList := by
    refine ⟨composePre.toList ++ dep.port.toList, [], ?_⟩
    simp [createDockerCompose, String.toList, String.data_append]
  have hofSuf : ∀ l : List Char, l <:+: composeSuf.toList →
      l <:+: (createDockerCompose dep).toList :=
    fun l hl => hl.trans hsuf
  refine ⟨?_, hofSuf _ (by decide), hofSuf _ (by decide),
    hofSuf _ (by decide), fun ev => rfl, by decide⟩
  · refine ⟨("services:\n  app:\n    build: .\n    ports:\n      - ").toList,
      ("\n    environment:\n      PORT: \"8080\"\n    restart: always\n    networks:\n      - deployment-network\n\nnetworks:\n  deployment-network:\n    external: true").toList, ?_⟩
    have h1 : composePre.toList =
        ("services:\n  app:\n    build: .\n    ports:\n      - ").toList ++
          ("\"").toList := by decide
    have h2 : composeSuf.toList =
        (":8080\"").toList ++
          ("\n    environment:\n      PORT: \"8080\"\n    restart: always\n    networks:\n      - deployment-network\n\nnetworks:\n  deployment-network:\n    external: true").toList := by
      decide
    simp only [createDockerCompose, String.toList, String.data_append]
    simp only [String.toList] at h1 h2
    rw [h1, h2]
    simp [List.append_assoc]

/-! ### C5: Reverse Proxy Configurator ordering -/

/-- C5: the reload command appears in a run's trace only when the syntax
validation succeeded, and then strictly after it; a failing write or a
failing validation yields an error with no reload performed; a failing
reload yields an error; and a successful run implies every step
succeeded. -/
theorem c5_nginx_validate_before_reload :
    ∀ w : World,
      (Effect.nginxReload ∈ (configureNginx w).2 →
        w.nginxSyntaxCheck = .ok () ∧
        List.Sublist [Effect.nginxSyntaxCheck, Effect.nginxReload]
          (configureNginx w).2) ∧
      (∀ m, w.nginxWriteConfig = .error m →
        (configureNginx w).1 = .error ("failed to write nginx config: " ++ m) ∧
        Effect.nginxSyntaxCheck ∉ (configureNginx w).2 ∧
        Effect.nginxReload ∉ (configureNginx w).2) ∧
      (∀ m, w.nginxSyntaxCheck = .error m →
        (∃ e, (configureNginx w).1 = .error e) ∧
        Effect.nginxReload ∉ (configureNginx w).2) ∧
      (∀ m, w.nginxReload = .error m →
        (∃ e, (configureNginx w).1 = .error e)) ∧
      ((configureNginx w).1 = .ok () →
        w.nginxWriteConfig = .ok () ∧ w.nginxSyntaxCheck = .ok () ∧
        w.nginxReload = .ok ()) := by
  intro w
  rcases hw : w.nginxWriteConfig with m1 | u1 <;>
    rcases hs : w.nginxSymlink with _ | _ | ms <;>
      rcases ht : w.nginxSyntaxCheck with m2 | u2 <;>
        rcases hr : w.nginxReload with m3 | u3 <;>
          refine ⟨?_, ?_, ?_, ?_, ?_⟩ <;>
            simp [configureNginx, hw, hs, ht, hr] <;>
              decide

/-- C5 witness: with a failing syntax validation, the run errors out and no
reload is executed. -/
theorem c5_nginx_validate_before_reload_witness :
    (∃ e, (configureNginx
      ⟨fun _ => false, fun _ => false, .ok ("/root"), .ok (), true, .ok (),
       .ok (), .ok (), false, .ok (), .ok (), false, .ok (), .ok (),
       .ok, .error "bad config", .ok ()⟩).1 = .error e) ∧
    Effect.nginxReload ∉ (configureNginx
      ⟨fun _ => false, fun _ => false, .ok ("/root"), .ok (), true, .ok (),
       .ok (), .ok (), false, .ok (), .ok (), false, .ok (), .ok (),
       .ok, .error "bad config", .ok ()⟩).2 :=
  (c5_nginx_validate_before_reload
    ⟨fun _ => false, fun _ => false, .ok ("/root"), .ok (), true, .ok (),
     .ok (), .ok (), false, .ok (), .ok (), false, .ok (), .ok (),
     .ok, .error "bad config", .ok ()⟩).2.2.1 ("bad config") rfl

/-! ### C4: pipeline fail-fast behaviour — supporting lemmas -/

/-- The workspace-preparation stage only performs clone-related effects. -/
theorem cloneRepository_trace_subset (w : World) :
    (cloneRepository w).2 ⊆
      [Effect.statWorkDir, Effect.removeWorkDir, Effect.mkdirParent,
       Effect.gitClone] := by
  rcases hx : w.workDirExists <;>
    rcases hr : w.removeWorkDir with mr | ur <;>
      rcases hp : w.mkdirParent with mp | up <;>
        rcases hg : w.gitClone with mg | ug <;>
          simp [cloneRepository, hx, hr, hp, hg]

/-- The recipe stage only performs stat/write effects. -/
theorem ensureDockerfileStep_trace_subset (w : World) :
    (ensureDockerfileStep w).2 ⊆
      [Effect.statDockerfile, Effect.writeDockerfile] := by
  rcases hx : w.dockerfileExists <;>
    rcases hw : w.writeDockerfile with mw | uw <;>
      simp [ensureDockerfileStep, hx, hw]

/-- The container stage only performs container-runtime effects. -/
theorem buildAndRun_trace_subset (w : World) :
    (buildAndRun w).2 ⊆
      [Effect.composeDown, Effect.dockerPsCheck, Effect.dockerStopRm,
       Effect.networkCreate, Effect.composeUp] := by
  rcases hx : w.psFindsContainer <;>
    rcases hu : w.composeUp with mu | uu <;>
      simp [buildAndRun, hx, hu]

/-- Storing a mapping makes it the binding its key reads back. -/
theorem mapLookup_mapStore_self (m : UsedPorts) (k : String)
    (v : PortMapping) : mapLookup (mapStore m k v) k = some v := by
  simp [mapLookup, mapStore, List.lookup]

/-- Inverting the port-resolution result. -/
theorem resolvePort_inv {w : World} {fuel : Nat} {used u' : UsedPorts}
    {dep : Deployment} {p : String}
    (h : resolvePort w fuel used dep = some (p, u')) :
    u' = mapStore used p ⟨p, dep.projectName, dep.gitUrl⟩ := by
  unfold resolvePort at h
  rcases hch : (if dep.port = "" then getNextAvailablePort w used fuel
      else if !(isPortAvailable w dep.port) then
        getNextAvailablePort w used fuel
      else some dep.port) with _ | q
  · rw [hch] at h
    cases h
  · rw [hch] at h
    have h' := Option.some.inj h
    have hq : q = p := congrArg Prod.fst h'
    subst hq
    exact (congrArg Prod.snd h').symm

/-- A run in which every stage reports success, for the C4 counterexample
and witness, except that `git clone` fails. -/
def cloneFailWorld : World := { allOkWorld with gitClone := .error "boom" }

/-- C4 counterexample: when the clone stage fails, `DeployProject` returns a
bare Go error — no `DeploymentResult` (in particular none with status
`error`) is produced. -/
theorem c4_error_result_claim_false :
    (deployStages cloneFailWorld ⟨"u", [], "3000", "app"⟩).1 =
      .error ("failed to clone repository: git clone failed: boom") ∧
    ¬ ∃ r : DeploymentResult,
        (deployStages cloneFailWorld ⟨"u", [], "3000", "app"⟩).1 = .ok r := by
  have h1 : (deployStages cloneFailWorld ⟨"u", [], "3000", "app"⟩).1 =
      .error ("failed to clone repository: git clone failed: boom") := by
    rfl
  refine ⟨h1, ?_⟩
  rintro ⟨r, hr⟩
  rw [h1] at hr
  cases hr

/-- C4 amended: the first failing stage stops the pipeline at once with the
stage's wrapped error and no later stage's effect in the trace; no earlier
work is rolled back (in particular the stored port assignment survives every
outcome); a run in which every stage succeeds returns the success
`DeploymentResult`; and a failed run produces no `DeploymentResult` — the
error is surfaced by the handler as a plain-text 500 response. -/
theorem c4_pipeline_fail_fast :
    ∀ (w : World) (dep : Deployment),
      (∀ hd, w.homeDir = .ok hd → w.mkdirWorkspace = .ok () →
        (cloneRepository w).1 = .ok () → (ensureDockerfileStep w).1 = .ok () →
        w.writeCompose = .ok () → (buildAndRun w).1 = .ok () →
        (configureNginx w).1 = .ok () →
        (deployStages w dep).1 =
          .ok ⟨"success", "http://" ++ dep.projectName ++ ".localhost",
               dep.port, ""⟩) ∧
      (∀ m, w.homeDir = .error m →
        (deployStages w dep).1 =
          .error ("failed to get home directory: " ++ m) ∧
        (deployStages w dep).2 = []) ∧
      (∀ hd m, w.homeDir = .ok hd → w.mkdirWorkspace = .error m →
        (deployStages w dep).1 = .error ("failed to create workspace: " ++ m) ∧
        (deployStages w dep).2 = [Effect.mkdirWorkspace]) ∧
      (∀ hd m, w.homeDir = .ok hd → w.mkdirWorkspace = .ok () →
        (cloneRepository w).1 = .error m →
        (deployStages w dep).1 =
          .error ("failed to clone repository: " ++ m) ∧
        (deployStages w dep).2 ⊆
          [Effect.mkdirWorkspace, Effect.statWorkDir, Effect.removeWorkDir,
           Effect.mkdirParent, Effect.gitClone]) ∧
      (∀ hd m, w.homeDir = .ok hd → w.mkdirWorkspace = .ok () →
        (cloneRepository w).1 = .ok () →
        (ensureDockerfileStep w).1 = .error m →
        (deployStages w dep).1 =
          .error ("failed to create Dockerfile: " ++ m) ∧
        (deployStages w dep).2 ⊆
          [Effect.mkdirWorkspace, Effect.statWorkDir, Effect.removeWorkDir,
           Effect.mkdirParent, Effect.gitClone, Effect.statDockerfile,
           Effect.writeDockerfile]) ∧
      (∀ hd m, w.homeDir = .ok hd → w.mkdirWorkspace = .ok () →
        (cloneRepository w).1 = .ok () →
        (ensureDockerfileStep w).1 = .ok () → w.writeCompose = .error m →
        (deployStages w dep).1 =
          .error ("failed to create docker-compose.yml: " ++ m) ∧
        (deployStages w dep).2 ⊆
          [Effect.mkdirWorkspace, Effect.statWorkDir, Effect.removeWorkDir,
           Effect.mkdirParent, Effect.gitClone, Effect.statDockerfile,
           Effect.writeDockerfile, Effect.writeCompose]) ∧
      (∀ hd m, w.homeDir = .ok hd → w.mkdirWorkspace = .ok () →
        (cloneRepository w).1 = .ok () →
        (ensureDockerfileStep w).1 = .ok () → w.writeCompose = .ok () →
        (buildAndRun w).1 = .error m →
        (deployStages w dep).1 = .error ("failed to build and run: " ++ m) ∧
        Effect.nginxWriteConfig ∉ (deployStages w dep).2 ∧
        Effect.nginxSyntaxCheck ∉ (deployStages w dep).2 ∧
        Effect.nginxReload ∉ (deployStages w dep).2) ∧
      (∀ hd m, w.homeDir = .ok hd → w.mkdirWorkspace = .ok () →
        (cloneRepository w).1 = .ok () →
        (ensureDockerfileStep w).1 = .ok () → w.writeCompose = .ok () →
        (buildAndRun w).1 = .ok () → (configureNginx w).1 = .error m →
        (deployStages w dep).1 =
          .error ("failed to configure nginx: " ++ m)) ∧
      (∀ (fuel : Nat) (used : UsedPorts) res usedF tr,
        DeployProject w fuel used dep = some (res, usedF, tr) →
        ∃ p, usedF = mapStore used p ⟨p, dep.projectName, dep.gitUrl⟩ ∧
          mapLookup usedF p = some ⟨p, dep.projectName, dep.gitUrl⟩) ∧
      (∀ (fuel : Nat) (used : UsedPorts) e usedF tr,
        dep.gitUrl ≠ "" → dep.port ≠ "" → dep.projectName ≠ "" →
        DeployProject w fuel used dep = some (.error e, usedF, tr) →
        deploymentHandler w fuel used dep =
          some (.plainError 500 e, usedF, tr)) := by
  intro w dep
  refine ⟨?_, ?_, ?_, ?_, ?_, ?_, ?_, ?_, ?_, ?_⟩
  · intro hd hhd hmk hcl hens hwc hbu hng
    rcases hc : cloneRepository w with ⟨cres, ctr⟩
    rcases he : ensureDockerfileStep w with ⟨eres, etr⟩
    rcases hb : buildAndRun w with ⟨bres, btr⟩
    rcases hn : configureNginx w with ⟨nres, ntr⟩
    rw [hc] at hcl
    rw [he] at hens
    rw [hb] at hbu
    rw [hn] at hng
    simp only [] at hcl hens hbu hng
    simp [deployStages, hhd, hmk, hc, he, hwc, hb, hn, hcl, hens, hbu, hng]
  · intro m hm
    simp [deployStages, hm]
  · intro hd m hhd hm
    simp [deployStages, hhd, hm]
  · intro hd m hhd hmk hcl
    rcases hc : cloneRepository w with ⟨cres, ctr⟩
    rw [hc] at hcl
    simp only [] at hcl
    have htr : (deployStages w dep).2 = .mkdirWorkspace :: ctr := by
      simp [deployStages, hhd, hmk, hc, hcl]
    refine ⟨by simp [deployStages, hhd, hmk, hc, hcl], ?_⟩
    rw [htr]
    intro e he
    rcases List.mem_cons.mp he with h | h
    · simp [h]
    · have h4 := cloneRepository_trace_subset w
        (show e ∈ (cloneRepository w).2 by rw [hc]; exact h)
      simp at h4 ⊢
      tauto
  · intro hd m hhd hmk hcl hens
    rcases hc : cloneRepository w with ⟨cres, ctr⟩
    rcases he : ensureDockerfileStep w with ⟨eres, etr⟩
    rw [hc] at hcl
    rw [he] at hens
    simp only [] at hcl hens
    have htr : (deployStages w dep).2 = .mkdirWorkspace :: ctr ++ etr := by
      simp [deployStages, hhd, hmk, hc, he, hcl, hens]
    refine ⟨by simp [deployStages, hhd, hmk, hc, he, hcl, hens], ?_⟩
    rw [htr]
    intro e hme
    rcases List.mem_cons.mp hme with h | h
    · simp [h]
    · rcases List.mem_append.mp h with h2 | h2
      · have h4 := cloneRepository_trace_subset w
          (show e ∈ (cloneRepository w).2 by rw [hc]; exact h2)
        simp at h4 ⊢
        tauto
      · have h4 := ensureDockerfileStep_trace_subset w
          (show e ∈ (ensureDockerfileStep w).2 by rw [he]; exact h2)
        simp at h4 ⊢
        tauto
  · intro hd m hhd hmk hcl hens hwc
    rcases hc : cloneRepository w with ⟨cres, ctr⟩
    rcases he : ensureDockerfileStep w with ⟨eres, etr⟩
    rw [hc] at hcl
    rw [he] at hens
    simp only [] at hcl hens
    have htr : (deployStages w dep).2 =
        .mkdirWorkspace :: ctr ++ etr ++ [.writeCompose] := by
      simp [deployStages, hhd, hmk, hc, he, hcl, hens, hwc]
    refine ⟨by simp [deployStages, hhd, hmk, hc, he, hcl, hens, hwc], ?_⟩
    rw [htr]
    intro e hme
    rcases List.mem_cons.mp hme with h | h
    · simp [h]
    · rcases List.mem_append.mp h with h2 | h2
      · rcases List.mem_append.mp h2 with h3 | h3
        · have h4 := cloneRepository_trace_subset w
            (show e ∈ (cloneRepository w).2 by rw [hc]; exact h3)
          simp at h4 ⊢
          tauto
        · have h4 := ensureDockerfileStep_trace_subset w
            (show e ∈ (ensureDockerfileStep w).2 by rw [he]; exact h3)
          simp at h4 ⊢
          tauto
      · simp at h2
        simp [h2]
  · intro hd m hhd hmk hcl hens hwc hbu
    rcases hc : cloneRepository w with ⟨cres, ctr⟩
    rcases he : ensureDockerfileStep w with ⟨eres, etr⟩
    rcases hb : buildAndRun w with ⟨bres, btr⟩
    rw [hc] at hcl
    rw [he] at hens
    rw [hb] at hbu
    simp only [] at hcl hens hbu
    have htr : (deployStages w dep).2 =
        .mkdirWorkspace :: ctr ++ etr ++ [.writeCompose] ++ btr := by
      simp [deployStages, hhd, hmk, hc, he, hwc, hb, hcl, hens, hbu]
    have hsub : (deployStages w dep).2 ⊆
        [Effect.mkdirWorkspace, Effect.statWorkDir, Effect.removeWorkDir,
         Effect.mkdirParent, Effect.gitClone, Effect.statDockerfile,
         Effect.writeDockerfile, Effect.writeCompose, Effect.composeDown,
         Effect.dockerPsCheck, Effect.dockerStopRm, Effect.networkCreate,
         Effect.composeUp] := by
      rw [htr]
      intro e hme
      rcases List.mem_cons.mp hme with h | h
      · simp [h]
      · rcases List.mem_append.mp h with h2 | h2
        · rcases List.mem_append.mp h2 with h3 | h3
          · rcases List.mem_append.mp h3 with h4 | h4
            · have h5 := cloneRepository_trace_subset w
                (show e ∈ (cloneRepository w).2 by rw [hc]; exact h4)
              simp at h5 ⊢
              tauto
            · have h5 := ensureDockerfileStep_trace_subset w
                (show e ∈ (ensureDockerfileStep w).2 by rw [he]; exact h4)
              simp at h5 ⊢
              tauto
          · simp at h3
            simp [h3]
        · have h5 := buildAndRun_trace_subset w
            (show e ∈ (buildAndRun w).2 by rw [hb]; exact h2)
          simp at h5 ⊢
          tauto
    refine ⟨by simp [deployStages, hhd, hmk, hc, he, hwc, hb, hcl, hens, hbu],
      ?_, ?_, ?_⟩ <;>
      exact fun hin => by
        have := hsub hin
        simp at this
  · intro hd m hhd hmk hcl hens hwc hbu hng
    rcases hc : cloneRepository w with ⟨cres, ctr⟩
    rcases he : ensureDockerfileStep w with ⟨eres, etr⟩
    rcases hb : buildAndRun w with ⟨bres, btr⟩
    rcases hn : configureNginx w with ⟨nres, ntr⟩
    rw [hc] at hcl
    rw [he] at hens
    rw [hb] at hbu
    rw [hn] at hng
    simp only [] at hcl hens hbu hng
    simp [deployStages, hhd, hmk, hc, he, hwc, hb, hn, hcl, hens, hbu, hng]
  · intro fuel used res usedF tr h
    unfold DeployProject at h
    rcases hrp : resolvePort w fuel used dep with _ | pu
    · rw [hrp] at h
      cases h
    · rcases pu with ⟨p, u2⟩
      have hu2 := resolvePort_inv hrp
      rw [hrp] at h
      have h' := Option.some.inj h
      have husd : u2 = usedF := congrArg (fun t => t.2.1) h'
      refine ⟨p, ?_, ?_⟩
      · rw [← husd, hu2]
      · rw [← husd, hu2]
        exact mapLookup_mapStore_self used p _
  · intro fuel used e usedF tr hg hp hn h
    simp [deploymentHandler, hg, hp, hn, h]

/-- C4 witness: a run in which every stage succeeds produces the success
result with the project URL and port. -/
theorem c4_pipeline_fail_fast_witness :
    (deployStages allOkWorld ⟨"u", [], "3000", "app"⟩).1 =
      .ok ⟨"success", "http://app.localhost", "3000", ""⟩ := by
  have h := (c4_pipeline_fail_fast allOkWorld ⟨"u", [], "3000", "app"⟩).1
    ("/root") rfl rfl rfl rfl rfl rfl rfl
  rw [h]
  rfl

end Erebrus
